import Mathlib

/-!
Verification development for the VerusHash core of this repository
(src/Native/libverushash/verushash.cpp, verushash.h).

The C code is shallowly embedded: bytes are Nat values below 256, byte
buffers are List Nat, 32-bit and 64-bit machine arithmetic is Nat
arithmetic reduced modulo 2 to the 32 or 64.  The two permutation paths
(haraka512_software and, under HAVE_AES_NI, haraka512_aes_ni built on the
AESENC instruction) are embedded directly; the runtime CPU dispatch in
haraka512 is modelled by a Boolean parameter standing for the result of
verushash_has_aes_ni.
-/

set_option maxRecDepth 8000

namespace VerusHash

/-- Modulus of 32-bit machine arithmetic. -/
def U32 : Nat := 4294967296

/-- Modulus of 64-bit machine arithmetic. -/
def U64 : Nat := 18446744073709551616

/-- Little-endian byte encoding of a value into n bytes, as done by the
store of a uint64 (or the four bytes of a uint32) into a byte buffer on a
little-endian target. -/
def leBytes (n v : Nat) : List Nat :=
  (List.range n).map (fun i => v / 256 ^ i % 256)

/-- The 32-bit word read from byte offset 4*i of a byte buffer, as by the
uint32 loads in haraka512_software. -/
def word32At (b : List Nat) (i : Nat) : Nat :=
  b.getD (4 * i) 0 + 256 * b.getD (4 * i + 1) 0 +
    65536 * b.getD (4 * i + 2) 0 + 16777216 * b.getD (4 * i + 3) 0

/-- Bytewise XOR of two buffers; the lane-wise _mm_xor_si128 over four
16-byte lanes is exactly this on the 64-byte buffers. -/
def xorBytes (a b : List Nat) : List Nat :=
  List.zipWith (fun x y => x ^^^ y) a b

/-- memcpy of src into dst at byte offset off (the only uses in the C code
stay inside the destination buffer). -/
def writeBytes (dst : List Nat) (off : Nat) (src : List Nat) : List Nat :=
  dst.take off ++ src ++ dst.drop (off + src.length)

/-- The HARAKA_RC constant table viewed as 32 little-endian 32-bit words in
memory order: _mm_set_epi32(e3,e2,e1,e0) lays out e0,e1,e2,e3 from the low
address, so each source line contributes its arguments reversed. -/
def HARAKA_RC_words : List Nat :=
  [0xb6707e78, 0x417f1b07, 0x2d345e69, 0x0e05ae8c,
   0x78a93ab4, 0xfd7c8b85, 0x5c12a4a8, 0xc6f7e2f3,
   0xe1a7c3d1, 0x924fddb2, 0x4c9a4f5e, 0x8c5f87ad,
   0x23a8c9be, 0x85f2a641, 0x7a94c28e, 0xf43b8f5b,
   0x41c8d956, 0xf83c6e2b, 0x9a7de8f1, 0x5c18b2d4,
   0x73e1a4c2, 0xb5f8d629, 0x8e4a7c5f, 0x2f9db3ac,
   0xa5b9e1c7, 0x1f8c4d26, 0xe7d15a3b, 0x6b2c8f94,
   0x8e1d756c, 0xf2b4c9a5, 0x3d7a61e8, 0x9c5f2b84]

/-- The 16 bytes of HARAKA_RC[i] in memory order. -/
def HARAKA_RC16 (i : Nat) : List Nat :=
  ((List.range 4).map (fun j => leBytes 4 (HARAKA_RC_words.getD (4 * i + j) 0))).flatten

/-- The word update of one software round, from haraka512_software:
x ^= rotl13(x); x ^= rotr17(x); x += rc, all in uint32 arithmetic. -/
def softWord (rc x : Nat) : Nat :=
  let x1 := x ^^^ ((x <<< 13) % U32 ||| x >>> 19)
  let x2 := x1 ^^^ (x1 >>> 17 ||| (x1 <<< 15) % U32)
  (x2 + rc) % U32

/-- One round of haraka512_software on the sixteen 32-bit state words:
every word is transformed by softWord with round constant word i mod 8,
then on odd rounds the loop temp = state[0]; state[i] = state[i+1];
state[15] = temp shifts the whole word array down by one position. -/
def softRound (r : Nat) (w : List Nat) : List Nat :=
  let w1 := (List.range 16).map (fun i => softWord (HARAKA_RC_words.getD (i % 8) 0) (w.getD i 0))
  if r % 2 = 1 then
    (List.range 15).map (fun i => w1.getD (i + 1) 0) ++ [w1.getD 0 0]
  else w1

/-- Software implementation of the permutation, embedded from
haraka512_software: load sixteen little-endian words, apply 8 rounds,
feed-forward XOR with the input words, and compress word i with word i+8
into a 32-byte output. -/
def haraka512_software (input : List Nat) : List Nat :=
  let w0 := (List.range 16).map (fun i => word32At input i)
  let w := (List.range 8).foldl (fun acc r => softRound r acc) w0
  let f := (List.range 16).map (fun i => w.getD i 0 ^^^ w0.getD i 0)
  ((List.range 8).map (fun i => leBytes 4 (f.getD i 0 ^^^ f.getD (i + 8) 0))).flatten

/-- The AES S-box (FIPS 197), the SubBytes step performed inside the
AESENC instruction used by haraka512_aes_ni. -/
def sbox : List Nat :=
  [0x63, 0x7c, 0x77, 0x7b, 0xf2, 0x6b, 0x6f, 0xc5, 0x30, 0x01, 0x67, 0x2b, 0xfe, 0xd7, 0xab, 0x76,
   0xca, 0x82, 0xc9, 0x7d, 0xfa, 0x59, 0x47, 0xf0, 0xad, 0xd4, 0xa2, 0xaf, 0x9c, 0xa4, 0x72, 0xc0,
   0xb7, 0xfd, 0x93, 0x26, 0x36, 0x3f, 0xf7, 0xcc, 0x34, 0xa5, 0xe5, 0xf1, 0x71, 0xd8, 0x31, 0x15,
   0x04, 0xc7, 0x23, 0xc3, 0x18, 0x96, 0x05, 0x9a, 0x07, 0x12, 0x80, 0xe2, 0xeb, 0x27, 0xb2, 0x75,
   0x09, 0x83, 0x2c, 0x1a, 0x1b, 0x6e, 0x5a, 0xa0, 0x52, 0x3b, 0xd6, 0xb3, 0x29, 0xe3, 0x2f, 0x84,
   0x53, 0xd1, 0x00, 0xed, 0x20, 0xfc, 0xb1, 0x5b, 0x6a, 0xcb, 0xbe, 0x39, 0x4a, 0x4c, 0x58, 0xcf,
   0xd0, 0xef, 0xaa, 0xfb, 0x43, 0x4d, 0x33, 0x85, 0x45, 0xf9, 0x02, 0x7f, 0x50, 0x3c, 0x9f, 0xa8,
   0x51, 0xa3, 0x40, 0x8f, 0x92, 0x9d, 0x38, 0xf5, 0xbc, 0xb6, 0xda, 0x21, 0x10, 0xff, 0xf3, 0xd2,
   0xcd, 0x0c, 0x13, 0xec, 0x5f, 0x97, 0x44, 0x17, 0xc4, 0xa7, 0x7e, 0x3d, 0x64, 0x5d, 0x19, 0x73,
   0x60, 0x81, 0x4f, 0xdc, 0x22, 0x2a, 0x90, 0x88, 0x46, 0xee, 0xb8, 0x14, 0xde, 0x5e, 0x0b, 0xdb,
   0xe0, 0x32, 0x3a, 0x0a, 0x49, 0x06, 0x24, 0x5c, 0xc2, 0xd3, 0xac, 0x62, 0x91, 0x95, 0xe4, 0x79,
   0xe7, 0xc8, 0x37, 0x6d, 0x8d, 0xd5, 0x4e, 0xa9, 0x6c, 0x56, 0xf4, 0xea, 0x65, 0x7a, 0xae, 0x08,
   0xba, 0x78, 0x25, 0x2e, 0x1c, 0xa6, 0xb4, 0xc6, 0xe8, 0xdd, 0x74, 0x1f, 0x4b, 0xbd, 0x8b, 0x8a,
   0x70, 0x3e, 0xb5, 0x66, 0x48, 0x03, 0xf6, 0x0e, 0x61, 0x35, 0x57, 0xb9, 0x86, 0xc1, 0x1d, 0x9e,
   0xe1, 0xf8, 0x98, 0x11, 0x69, 0xd9, 0x8e, 0x94, 0x9b, 0x1e, 0x87, 0xe9, 0xce, 0x55, 0x28, 0xdf,
   0x8c, 0xa1, 0x89, 0x0d, 0xbf, 0xe6, 0x42, 0x68, 0x41, 0x99, 0x2d, 0x0f, 0xb0, 0x54, 0xbb, 0x16]

/-- Multiplication by x in GF(2 to the 8), the xtime of FIPS 197, used to
express the MixColumns step of AESENC. -/
def xtime (x : Nat) : Nat :=
  ((x <<< 1) ^^^ (if 128 ≤ x then 27 else 0)) % 256

/-- The ShiftRows step of AESENC on a 16-byte lane laid out column-major:
output byte 4*c + r comes from input byte 4*((c+r) mod 4) + r. -/
def shiftRows (s : List Nat) : List Nat :=
  (List.range 16).map (fun j => s.getD (4 * ((j / 4 + j % 4) % 4) + j % 4) 0)

/-- The MixColumns image of one column. -/
def mixColumn (a0 a1 a2 a3 : Nat) : List Nat :=
  [xtime a0 ^^^ (xtime a1 ^^^ a1) ^^^ a2 ^^^ a3,
   a0 ^^^ xtime a1 ^^^ (xtime a2 ^^^ a2) ^^^ a3,
   a0 ^^^ a1 ^^^ xtime a2 ^^^ (xtime a3 ^^^ a3),
   (xtime a0 ^^^ a0) ^^^ a1 ^^^ a2 ^^^ xtime a3]

/-- The MixColumns step of AESENC on a 16-byte lane. -/
def mixColumns (s : List Nat) : List Nat :=
  ((List.range 4).map (fun c =>
    mixColumn (s.getD (4 * c) 0) (s.getD (4 * c + 1) 0)
      (s.getD (4 * c + 2) 0) (s.getD (4 * c + 3) 0))).flatten

/-- Semantics of one _mm_aesenc_si128 instruction: ShiftRows, SubBytes,
MixColumns, then XOR with the round key lane. -/
def aesenc (s rk : List Nat) : List Nat :=
  let m := mixColumns ((shiftRows s).map (fun b => sbox.getD b 0))
  (List.range 16).map (fun j => m.getD j 0 ^^^ rk.getD j 0)

/-- One round of haraka512_aes_ni on the four 16-byte lanes: AESENC each
lane with round constants i, i+1, i+2, i+3 (mod 8), and on odd rounds
rotate the four lanes cyclically (s0,s1,s2,s3) to (s1,s2,s3,s0). -/
def aesRound (i : Nat) (l : List (List Nat)) : List (List Nat) :=
  let t0 := aesenc (l.getD 0 []) (HARAKA_RC16 (i % 8))
  let t1 := aesenc (l.getD 1 []) (HARAKA_RC16 ((i + 1) % 8))
  let t2 := aesenc (l.getD 2 []) (HARAKA_RC16 ((i + 2) % 8))
  let t3 := aesenc (l.getD 3 []) (HARAKA_RC16 ((i + 3) % 8))
  if i % 2 = 1 then [t1, t2, t3, t0] else [t0, t1, t2, t3]

/-- Hardware implementation of the permutation, embedded from
haraka512_aes_ni: 8 AES rounds over four 128-bit lanes, feed-forward XOR
with the input, and the final compression s0 XOR s2, s1 XOR s3. -/
def haraka512_aes_ni (input : List Nat) : List Nat :=
  let lanes0 := (List.range 4).map (fun k => (List.range 16).map (fun j => input.getD (16 * k + j) 0))
  let lanes := (List.range 8).foldl (fun acc i => aesRound i acc) lanes0
  let f := (List.range 4).map (fun k =>
    (List.range 16).map (fun j => (lanes.getD k []).getD j 0 ^^^ input.getD (16 * k + j) 0))
  (List.range 16).map (fun j => (f.getD 0 []).getD j 0 ^^^ (f.getD 2 []).getD j 0) ++
    (List.range 16).map (fun j => (f.getD 1 []).getD j 0 ^^^ (f.getD 3 []).getD j 0)

/-- The dispatcher haraka512: the Boolean stands for the HAVE_AES_NI build
flag together with the runtime verushash_has_aes_ni probe. -/
def haraka512 (aes : Bool) (input : List Nat) : List Nat :=
  if aes then haraka512_aes_ni input else haraka512_software input

/-- The fixed initial 512-bit state, from the four _mm_set_epi64x(hi, lo)
in verushash_hash and verushash_create_context; in memory the low half lo
precedes hi, each little-endian. -/
def initState : List Nat :=
  leBytes 8 0xbb67ae8584caa73b ++ leBytes 8 0x6a09e667f3bcc908 ++
  leBytes 8 0xa54ff53a5f1d36f1 ++ leBytes 8 0x3c6ef372fe94f82b ++
  leBytes 8 0x9b05688c2b3e6c1f ++ leBytes 8 0x510e527fade682d1 ++
  leBytes 8 0x5be0cd19137e2179 ++ leBytes 8 0x1f83d9abfb41bd6b

/-- The non-final block absorption step repeated verbatim in
verushash_hash, verushash_update and the overflow branch of
verushash_finalize: XOR the 64-byte block into the state, run haraka512 on
the result, and overwrite the first 32 bytes (lanes 0 and 1) of the XORed
state with the 32-byte permutation output. -/
def absorbBlock (aes : Bool) (state block : List Nat) : List Nat :=
  let x := xorBytes state block
  writeBytes x 0 (haraka512 aes x)

/-- Body of the while-loops of verushash_hash and verushash_update that
absorb complete 64-byte blocks: the loop runs once per full block, so it
is embedded as structural recursion on the number n of full blocks left,
consuming 64 bytes per iteration. -/
def absorbBlocksGo (aes : Bool) : Nat → List Nat → List Nat → List Nat × List Nat
  | 0, s, d => (s, d)
  | n + 1, s, d => absorbBlocksGo aes n (absorbBlock aes s (d.take 64)) (d.drop 64)

/-- The while-loops of verushash_hash and verushash_update that absorb
complete 64-byte blocks from the unconsumed data, returning the new state
and the remaining tail of fewer than 64 bytes.  The loop condition
remaining at least 64 holds for exactly the first length / 64
iterations. -/
def absorbFullBlocks (aes : Bool) (state data : List Nat) : List Nat × List Nat :=
  absorbBlocksGo aes (data.length / 64) state data

/-- The final padded block built by verushash_hash when remaining bytes
exist: a zeroed 64-byte buffer receives the remaining bytes, the 0x80
marker at their end, and then the uint64 store of input_len * 8 into bytes
56 to 63.  The multiplication input_len * 8 is uint32 arithmetic, hence
the reduction modulo 2 to the 32 before the 64-bit store. -/
def padBlockSS (r : List Nat) (L : Nat) : List Nat :=
  let b := writeBytes (List.replicate 64 0) 0 r
  let b1 := writeBytes b r.length [0x80]
  writeBytes b1 56 (leBytes 8 (L * 8 % U32))

/-- The single-shot entry point, embedded from verushash_hash: absorb full
blocks, then either absorb the final padded block and return the direct
permutation output, or, when no bytes remain, return the permutation of
the current state with no padding at all. -/
def verushash_hash (aes : Bool) (input : List Nat) : List Nat :=
  let sr := absorbFullBlocks aes initState input
  if 0 < sr.2.length then
    haraka512 aes (xorBytes sr.1 (padBlockSS sr.2 input.length))
  else
    haraka512 aes sr.1

/-- The streaming context, from struct verushash_ctx: the 64-byte buffer,
the count of valid buffered bytes, the running uint64 total of supplied
bytes, and the 512-bit state. -/
structure Ctx where
  buffer : List Nat
  buffer_len : Nat
  total_len : Nat
  state : List Nat
deriving DecidableEq, Repr

/-- verushash_create_context: zeroed buffer, zero counters, fixed initial
state. -/
def verushash_create_context : Ctx :=
  { buffer := List.replicate 64 0, buffer_len := 0, total_len := 0, state := initState }

/-- verushash_destroy_context: memset of the whole context to zero before
the free. -/
def verushash_destroy_context : Ctx :=
  { buffer := List.replicate 64 0, buffer_len := 0, total_len := 0, state := List.replicate 64 0 }

/-- verushash_update: add the chunk length to the running total in uint64
arithmetic; if the buffer is non-empty, top it up and absorb it when it
reaches exactly 64 bytes; absorb complete blocks straight from the chunk;
copy any leftover bytes into the buffer. -/
def verushash_update (aes : Bool) (ctx : Ctx) (data : List Nat) : Ctx :=
  let total := (ctx.total_len + data.length) % U64
  let step1 :=
    if 0 < ctx.buffer_len then
      let needed := 64 - ctx.buffer_len
      let toCopy := min data.length needed
      let buf := writeBytes ctx.buffer ctx.buffer_len (data.take toCopy)
      let bl := ctx.buffer_len + toCopy
      if bl = 64 then (absorbBlock aes ctx.state buf, buf, 0, data.drop toCopy)
      else (ctx.state, buf, bl, data.drop toCopy)
    else (ctx.state, ctx.buffer, ctx.buffer_len, data)
  let sr := absorbFullBlocks aes step1.1 step1.2.2.2
  if 0 < sr.2.length then
    { buffer := writeBytes step1.2.1 step1.2.2.1 sr.2,
      buffer_len := step1.2.2.1 + sr.2.length, total_len := total, state := sr.1 }
  else
    { buffer := step1.2.1, buffer_len := step1.2.2.1, total_len := total, state := sr.1 }

/-- verushash_finalize: place the 0x80 marker at the next free byte and
count it; if the buffer now exceeds 56 bytes, zero-pad it to 64, absorb
it, and start a zeroed buffer; otherwise zero-fill up to byte 56; store
total_len * 8 as a uint64 into bytes 56 to 63; XOR the block into the
state (stored back into the context) and return the direct permutation
output together with the context the call leaves behind. The total times 8
store is uint64 arithmetic here, unlike the single-shot path. -/
def verushash_finalize (aes : Bool) (ctx : Ctx) : List Nat × Ctx :=
  let buf := writeBytes ctx.buffer ctx.buffer_len [0x80]
  let bl := ctx.buffer_len + 1
  let step1 :=
    if 56 < bl then
      (absorbBlock aes ctx.state (writeBytes buf bl (List.replicate (64 - bl) 0)),
       List.replicate 64 0, 0)
    else
      (ctx.state, writeBytes buf bl (List.replicate (56 - bl) 0), bl)
  let buf2 := writeBytes step1.2.1 56 (leBytes 8 (ctx.total_len * 8 % U64))
  let st2 := xorBytes step1.1 buf2
  (haraka512 aes st2,
   { buffer := buf2, buffer_len := step1.2.2, total_len := ctx.total_len, state := st2 })

/-- A whole streaming run: create a context and update it with each chunk
in order. -/
def verushash_updates (aes : Bool) (chunks : List (List Nat)) : Ctx :=
  chunks.foldl (verushash_update aes) verushash_create_context

/-- Digest of a whole streaming run over the given chunks. -/
def streamHash (aes : Bool) (chunks : List (List Nat)) : List Nat :=
  (verushash_finalize aes (verushash_updates aes chunks)).1


/-- Cyclic rotation of a word array by one word: the effect of the odd
round loop of haraka512_software on its sixteen 32-bit words. -/
def rotWords1 (w : List Nat) : List Nat :=
  w.drop 1 ++ w.take 1

/-- One software round written with rotWords1 in place of the explicit
shifting loop; used to state the amended form of claim C8. -/
def softRoundRot (r : Nat) (w : List Nat) : List Nat :=
  let w1 := (List.range 16).map (fun i => softWord (HARAKA_RC_words.getD (i % 8) 0) (w.getD i 0))
  if r % 2 = 1 then rotWords1 w1 else w1

/-- The software permutation with the odd rounds described as a cyclic
rotation of the word array by one word (the amended claim C8). -/
def haraka512_softwareRot (input : List Nat) : List Nat :=
  let w0 := (List.range 16).map (fun i => word32At input i)
  let w := (List.range 8).foldl (fun acc r => softRoundRot r acc) w0
  let f := (List.range 16).map (fun i => w.getD i 0 ^^^ w0.getD i 0)
  ((List.range 8).map (fun i => leBytes 4 (f.getD i 0 ^^^ f.getD (i + 8) 0))).flatten

/-- Modelled from the spec wording of claim C8: one software round whose
odd rounds rotate the four 128-bit lanes, that is the four four-word
groups, cyclically as whole lanes, the same lane rotation the hardware
path performs.  Word i comes from word (i+4) mod 16. -/
def softRoundLaneSpec (r : Nat) (w : List Nat) : List Nat :=
  let w1 := (List.range 16).map (fun i => softWord (HARAKA_RC_words.getD (i % 8) 0) (w.getD i 0))
  if r % 2 = 1 then (List.range 16).map (fun i => w1.getD ((i + 4) % 16) 0) else w1

/-- Modelled from the spec wording of claim C8: the software permutation
as the claim describes it, with whole-lane rotation on odd rounds. -/
def haraka512_softwareLaneSpec (input : List Nat) : List Nat :=
  let w0 := (List.range 16).map (fun i => word32At input i)
  let w := (List.range 8).foldl (fun acc r => softRoundLaneSpec r acc) w0
  let f := (List.range 16).map (fun i => w.getD i 0 ^^^ w0.getD i 0)
  ((List.range 8).map (fun i => leBytes 4 (f.getD i 0 ^^^ f.getD (i + 8) 0))).flatten

/-- Modelled from the spec wording of claim C3: the final padded block as
the claim describes it for every message, the remaining trailing bytes,
one 0x80 marker immediately after them, zero fill up to byte offset 56,
and the total input length in bits in the last 8 bytes. -/
def padBlockSpec (r : List Nat) (L : Nat) : List Nat :=
  r ++ [0x80] ++ List.replicate (55 - r.length) 0 ++ leBytes 8 (L * 8)

/-- Modelled from the spec wording of claim C3: a single-shot hash that
ends by building the final padded block for every input, including inputs
whose length is an exact multiple of 64, XORs it into the state, runs the
permutation once more and returns its output as the digest. -/
def verushash_hashSpec (aes : Bool) (input : List Nat) : List Nat :=
  let sr := absorbFullBlocks aes initState input
  haraka512 aes (xorBytes sr.1 (padBlockSpec sr.2 input.length))

/-- Modelled from the spec wording of claim C4: a finalize in which, when
the buffer holds more than 55 pending bytes, the pending bytes are padded
with zero bytes to a full 64-byte block and absorbed first, and in both
cases the 0x80 marker is then placed at the next free byte of the block
that also carries the length field. -/
def verushash_finalizeSpec (aes : Bool) (ctx : Ctx) : List Nat :=
  let sp :=
    if 55 < ctx.buffer_len then
      (absorbBlock aes ctx.state
        (ctx.buffer.take ctx.buffer_len ++ List.replicate (64 - ctx.buffer_len) 0),
       ([] : List Nat))
    else (ctx.state, ctx.buffer.take ctx.buffer_len)
  haraka512 aes (xorBytes sp.1
    (sp.2 ++ [0x80] ++ List.replicate (55 - sp.2.length) 0 ++
      leBytes 8 (ctx.total_len * 8 % U64)))

/-- Claim C2: the hardware permutation path and the software permutation
path are required to return an identical 32-byte output for every 64-byte
block.  The code violates this: on the all-zero block the software path
returns the all-zero digest while the AESENC path does not. -/
theorem C2_paths_diverge_on_zero_block :
    haraka512_aes_ni (List.replicate 64 0) ≠ haraka512_software (List.replicate 64 0) := by
  decide

/-- Claim C1: for every message and every partition into chunks, the
streaming path must produce the same digest as the single-shot path.  The
code violates this already at the empty message, partitioned into one
zero-length chunk: the single-shot path absorbs no padding block at all
when no trailing bytes remain, while finalize always absorbs a padded
length block, so the digests differ on both permutation paths. -/
theorem C1_streaming_differs_from_single_shot :
    streamHash false [[]] ≠ verushash_hash false [] ∧
    streamHash true [[]] ≠ verushash_hash true [] := by
  constructor <;> decide

/-- Claim C3: the single-shot path is claimed to end with the final
padded block for every input, including inputs whose length is an exact
multiple of 64.  The code violates this at the empty input: it returns
the permutation of the bare state and never builds the padded block, so
it differs from the claimed behaviour on both permutation paths. -/
theorem C3_no_final_padding_at_block_multiple :
    verushash_hash false [] ≠ verushash_hashSpec false [] ∧
    verushash_hash true [] ≠ verushash_hashSpec true [] := by
  constructor <;> decide

/-- Claim C6: the digest of the empty message by verushash_hash is
claimed to equal the digest obtained from verushash_create_context
followed immediately by verushash_finalize.  The code violates the
equality on both permutation paths. -/
theorem C6_empty_hash_differs_from_fresh_finalize :
    verushash_hash false [] ≠ (verushash_finalize false verushash_create_context).1 ∧
    verushash_hash true [] ≠ (verushash_finalize true verushash_create_context).1 := by
  constructor <;> decide

/-- Claim C4, counterexample: after 56 bytes have been supplied, the
overflow branch of verushash_finalize runs, but the 0x80 marker goes into
the zero-padded block that is absorbed first, not into the block carrying
the length field as the claim states, and the digests of the code and of
the claimed behaviour differ on both permutation paths. -/
theorem C4_marker_not_in_length_block :
    (verushash_finalize false (verushash_updates false [List.replicate 56 1])).1 ≠
      verushash_finalizeSpec false (verushash_updates false [List.replicate 56 1]) ∧
    (verushash_finalize true (verushash_updates true [List.replicate 56 1])).1 ≠
      verushash_finalizeSpec true (verushash_updates true [List.replicate 56 1]) := by
  constructor <;> decide

/-- Claim C5, counterexample: for the total length L = 2 to the 29 plus 8,
expressible as a 32-bit length of the single-shot path, the length field
of the final padded block holds L * 8 reduced modulo 2 to the 32, which is
not the 64-bit value L * 8 the claim requires. -/
theorem C5_single_shot_length_field_truncates :
    (padBlockSS (List.replicate 8 0) 536870920).drop 56 ≠
      leBytes 8 (536870920 * 8 % U64) := by
  decide

/-- Claim C8, counterexample: the software path with the claimed
whole-lane rotation on odd rounds differs from haraka512_software on the
byte block 0, 1, ..., 63, because the code rotates the sixteen words by
one word, not by one four-word lane. -/
theorem C8_odd_round_is_not_lane_rotation :
    haraka512_software (List.range 64) ≠ haraka512_softwareLaneSpec (List.range 64) := by
  decide

/-- Claim C9, counterexample: after verushash_finalize on a freshly
created context the buffer is not zeroed; it still holds the final padded
block, whose first byte is the 0x80 marker. -/
theorem C9_finalize_does_not_zero_buffer :
    (verushash_finalize false verushash_create_context).2.buffer ≠
      List.replicate 64 0 := by
  decide

theorem length_leBytes (n v : Nat) : (leBytes n v).length = n := by
  simp [leBytes]

theorem length_flatten_map_range {a : Type} (f : Nat → List a) (k m : Nat)
    (h : ∀ i, (f i).length = k) :
    (((List.range m).map f).flatten).length = m * k := by
  induction m with
  | zero => simp
  | succ m ih => simp [List.range_succ, ih, h, Nat.succ_mul]

theorem length_haraka512_software (input : List Nat) :
    (haraka512_software input).length = 32 := by
  rw [haraka512_software]
  exact length_flatten_map_range _ 4 8 (fun i => length_leBytes 4 _)

theorem length_haraka512_aes_ni (input : List Nat) :
    (haraka512_aes_ni input).length = 32 := by
  simp [haraka512_aes_ni]

theorem length_haraka512 (aes : Bool) (input : List Nat) :
    (haraka512 aes input).length = 32 := by
  cases aes <;>
    simp [haraka512, length_haraka512_software, length_haraka512_aes_ni]

theorem writeBytes_zero (l v : List Nat) : writeBytes l 0 v = v ++ l.drop v.length := by
  simp [writeBytes]

theorem writeBytes_length (l v : List Nat) (off : Nat) (h : off + v.length ≤ l.length) :
    (writeBytes l off v).length = l.length := by
  simp [writeBytes]
  omega

/-- Claim C7: every non-final block absorption, the step shared verbatim
by verushash_hash, verushash_update and the overflow branch of
verushash_finalize, first XORs the block into the state, then overwrites
only the first 32 bytes (lanes 0 and 1) with the permutation output,
while the last 32 bytes (lanes 2 and 3) keep the XORed pre-permutation
values. -/
theorem C7_absorb_overwrites_only_first_two_lanes (aes : Bool) (s b : List Nat) :
    (absorbBlock aes s b).take 32 = haraka512 aes (xorBytes s b) ∧
    (absorbBlock aes s b).drop 32 = (xorBytes s b).drop 32 := by
  have h := length_haraka512 aes (xorBytes s b)
  constructor
  · rw [absorbBlock, writeBytes_zero, List.take_left' h]
  · rw [absorbBlock, writeBytes_zero, List.drop_left' h, h]

theorem absorbBlocksGo_snd (aes : Bool) (n : Nat) (s d : List Nat) :
    (absorbBlocksGo aes n s d).2 = d.drop (64 * n) := by
  induction n generalizing s d with
  | zero => simp [absorbBlocksGo]
  | succ n ih =>
    rw [absorbBlocksGo, ih, List.drop_drop]
    congr 1
    omega

theorem absorbFullBlocks_snd_length (aes : Bool) (s d : List Nat) :
    (absorbFullBlocks aes s d).2.length = d.length % 64 := by
  rw [absorbFullBlocks, absorbBlocksGo_snd, List.length_drop]
  omega

theorem update_buffer_invariant (aes : Bool) (ctx : Ctx) (data : List Nat)
    (h1 : ctx.buffer_len ≤ 63) (h2 : ctx.buffer_len = ctx.total_len % 64) :
    (verushash_update aes ctx data).buffer_len ≤ 63 ∧
    (verushash_update aes ctx data).buffer_len =
      (verushash_update aes ctx data).total_len % 64 := by
  have hdvd : (64 : Nat) ∣ U64 := by decide
  simp only [verushash_update]
  by_cases hb : 0 < ctx.buffer_len
  · rw [if_pos hb]
    by_cases hc : ctx.buffer_len + min data.length (64 - ctx.buffer_len) = 64
    · rw [if_pos hc]
      have hlen := absorbFullBlocks_snd_length aes
        (absorbBlock aes ctx.state
          (writeBytes ctx.buffer ctx.buffer_len
            (data.take (min data.length (64 - ctx.buffer_len)))))
        (data.drop (min data.length (64 - ctx.buffer_len)))
      by_cases hr : 0 < (absorbFullBlocks aes
          (absorbBlock aes ctx.state
            (writeBytes ctx.buffer ctx.buffer_len
              (data.take (min data.length (64 - ctx.buffer_len)))))
          (data.drop (min data.length (64 - ctx.buffer_len)))).2.length
      · rw [if_pos hr]
        simp only [List.length_drop] at hlen
        simp only [hlen, Nat.mod_mod_of_dvd _ hdvd]
        omega
      · rw [if_neg hr]
        simp only [List.length_drop] at hlen
        simp only [Nat.mod_mod_of_dvd _ hdvd]
        omega
    · rw [if_neg hc]
      have htc : min data.length (64 - ctx.buffer_len) = data.length := by omega
      rw [htc, List.drop_length]
      dsimp only
      rw [show absorbFullBlocks aes ctx.state [] = (ctx.state, []) from rfl]
      dsimp only
      rw [if_neg (by simp)]
      dsimp only
      rw [Nat.mod_mod_of_dvd _ hdvd]
      omega
  · rw [if_neg hb]
    have hlen := absorbFullBlocks_snd_length aes ctx.state data
    by_cases hr : 0 < (absorbFullBlocks aes ctx.state data).2.length
    · rw [if_pos hr]
      simp only [hlen, Nat.mod_mod_of_dvd _ hdvd]
      omega
    · rw [if_neg hr]
      simp only [Nat.mod_mod_of_dvd _ hdvd]
      omega

theorem updates_buffer_invariant (aes : Bool) (chunks : List (List Nat)) :
    ∀ ctx : Ctx, ctx.buffer_len ≤ 63 → ctx.buffer_len = ctx.total_len % 64 →
    (chunks.foldl (verushash_update aes) ctx).buffer_len ≤ 63 ∧
    (chunks.foldl (verushash_update aes) ctx).buffer_len =
      (chunks.foldl (verushash_update aes) ctx).total_len % 64 := by
  induction chunks with
  | nil => exact fun ctx h1 h2 => ⟨h1, h2⟩
  | cons c cs ih =>
    intro ctx h1 h2
    obtain ⟨g1, g2⟩ := update_buffer_invariant aes ctx c h1 h2
    exact ih _ g1 g2

/-- Claim C10: after verushash_create_context and any sequence of
verushash_update calls, the pending-byte count buffer_len lies in 0..63,
never 64, and equals total_len modulo 64: the buffer never holds a full
unabsorbed block. -/
theorem C10_buffer_len_invariant (aes : Bool) (chunks : List (List Nat)) :
    (verushash_updates aes chunks).buffer_len ≤ 63 ∧
    (verushash_updates aes chunks).buffer_len =
      (verushash_updates aes chunks).total_len % 64 := by
  exact updates_buffer_invariant aes chunks verushash_create_context
    (by simp [verushash_create_context]) (by simp [verushash_create_context])

theorem shiftLoop_eq_rotWords1 (l : List Nat) (h : l.length = 16) :
    (List.range 15).map (fun i => l.getD (i + 1) 0) ++ [l.getD 0 0] = rotWords1 l := by
  rw [rotWords1]
  apply List.ext_getElem
  · simp [h]
  · intro i h1 h2
    rcases Nat.lt_or_ge i 15 with hi | hi
    · rw [List.getElem_append_left (by simpa using hi),
        List.getElem_append_left (by simp [h]; omega)]
      rw [List.getElem_map, List.getElem_range, List.getElem_drop,
        List.getD_eq_getElem l 0 (by omega)]
      simp [Nat.add_comm]
    · have hi15 : i = 15 := by simp [h] at h1; omega
      subst hi15
      rw [List.getElem_append_right (by simp), List.getElem_append_right (by simp [h])]
      rw [List.getElem_take, List.getD_eq_getElem l 0 (by omega)]
      simp [h]

theorem softRound_eq_softRoundRot (r : Nat) (w : List Nat) :
    softRound r w = softRoundRot r w := by
  simp only [softRound, softRoundRot]
  by_cases h : r % 2 = 1
  · rw [if_pos h, if_pos h, shiftLoop_eq_rotWords1]
    simp
  · rw [if_neg h, if_neg h]

/-- Claim C8, amended: every round of haraka512_software transforms each
of the sixteen 32-bit words by the XOR-with-rotate-left-13, then
XOR-with-rotate-right-17, then addition of the round-constant word i mod 8
update, and every odd-numbered round then rotates the sixteen-word array
cyclically by one 32-bit word, not by whole 128-bit lanes as the hardware
path does. -/
theorem C8_odd_rounds_rotate_words_by_one (input : List Nat) :
    haraka512_software input = haraka512_softwareRot input := by
  have hfun : softRound = softRoundRot :=
    funext fun r => funext fun w => softRound_eq_softRoundRot r w
  simp only [haraka512_software, haraka512_softwareRot, hfun]

theorem finalize_overflow_block (l : List Nat) (bl : Nat) (hl : l.length = 64)
    (hbl : bl ≤ 63) :
    writeBytes (writeBytes l bl [0x80]) (bl + 1) (List.replicate (64 - (bl + 1)) 0) =
      l.take bl ++ [0x80] ++ List.replicate (63 - bl) 0 := by
  have ht : (l.take bl).length = bl := by simp [hl]; omega
  have hb : writeBytes l bl [0x80] = l.take bl ++ [0x80] ++ l.drop (bl + 1) := rfl
  have hc : 64 - (bl + 1) = 63 - bl := by omega
  rw [writeBytes, hb, hc]
  rw [List.take_left' (by simp [ht])]
  have hend : (bl + 1) + (List.replicate (63 - bl) (0 : Nat)).length = 64 := by
    simp; omega
  rw [hend]
  have hlen1 : (l.take bl ++ [0x80] ++ l.drop (bl + 1)).length = 64 := by
    simp [ht, hl]; omega
  rw [List.drop_eq_nil_of_le (le_of_eq hlen1)]
  simp

theorem finalize_inplace_block (l : List Nat) (bl : Nat) (hl : l.length = 64)
    (hbl : bl + 1 ≤ 56) :
    writeBytes (writeBytes l bl [0x80]) (bl + 1) (List.replicate (56 - (bl + 1)) 0) =
      l.take bl ++ [0x80] ++ List.replicate (55 - bl) 0 ++ l.drop 56 := by
  have ht : (l.take bl).length = bl := by simp [hl]; omega
  have hb : writeBytes l bl [0x80] = l.take bl ++ [0x80] ++ l.drop (bl + 1) := rfl
  have hc : 56 - (bl + 1) = 55 - bl := by omega
  rw [writeBytes, hb, hc]
  rw [List.take_left' (by simp [ht])]
  have hend : (bl + 1) + (List.replicate (55 - bl) (0 : Nat)).length = 56 := by
    simp; omega
  rw [hend]
  rw [List.drop_append_eq_append_drop]
  rw [List.drop_eq_nil_of_le (by simp [ht]; omega)]
  rw [List.drop_drop]
  simp [ht]
  congr 1
  omega

theorem write_length_field (m v : List Nat) (hm : m.length = 64) (hv : v.length = 8) :
    writeBytes m 56 v = m.take 56 ++ v := by
  rw [writeBytes, hv]
  rw [show (56 + 8) = 64 from rfl]
  rw [List.drop_eq_nil_of_le (le_of_eq hm)]
  simp

theorem finalize_eq (aes : Bool) (ctx : Ctx) (hbuf : ctx.buffer.length = 64)
    (hbl : ctx.buffer_len ≤ 63) :
    verushash_finalize aes ctx =
      if 55 < ctx.buffer_len then
        (haraka512 aes (xorBytes
            (absorbBlock aes ctx.state
              (ctx.buffer.take ctx.buffer_len ++ [0x80] ++
                List.replicate (63 - ctx.buffer_len) 0))
            (List.replicate 56 0 ++ leBytes 8 (ctx.total_len * 8 % U64))),
         { buffer := List.replicate 56 0 ++ leBytes 8 (ctx.total_len * 8 % U64),
           buffer_len := 0, total_len := ctx.total_len,
           state := xorBytes
             (absorbBlock aes ctx.state
               (ctx.buffer.take ctx.buffer_len ++ [0x80] ++
                 List.replicate (63 - ctx.buffer_len) 0))
             (List.replicate 56 0 ++ leBytes 8 (ctx.total_len * 8 % U64)) })
      else
        (haraka512 aes (xorBytes ctx.state
            (ctx.buffer.take ctx.buffer_len ++ [0x80] ++
              List.replicate (55 - ctx.buffer_len) 0 ++
              leBytes 8 (ctx.total_len * 8 % U64))),
         { buffer := ctx.buffer.take ctx.buffer_len ++ [0x80] ++
              List.replicate (55 - ctx.buffer_len) 0 ++
              leBytes 8 (ctx.total_len * 8 % U64),
           buffer_len := ctx.buffer_len + 1, total_len := ctx.total_len,
           state := xorBytes ctx.state
             (ctx.buffer.take ctx.buffer_len ++ [0x80] ++
               List.replicate (55 - ctx.buffer_len) 0 ++
               leBytes 8 (ctx.total_len * 8 % U64)) }) := by
  simp only [verushash_finalize]
  by_cases h : 55 < ctx.buffer_len
  · rw [if_pos (show 56 < ctx.buffer_len + 1 by omega), if_pos h]
    dsimp only
    rw [finalize_overflow_block ctx.buffer ctx.buffer_len hbuf hbl]
    rw [write_length_field _ _ (by simp) (length_leBytes 8 _)]
    rw [show (List.replicate 64 (0 : Nat)).take 56 = List.replicate 56 0 by
      simp [List.take_replicate]]
  · rw [if_neg (show ¬ 56 < ctx.buffer_len + 1 by omega), if_neg h]
    dsimp only
    rw [finalize_inplace_block ctx.buffer ctx.buffer_len hbuf (by omega)]
    have h56 : (ctx.buffer.take ctx.buffer_len ++ [0x80] ++
        List.replicate (55 - ctx.buffer_len) 0).length = 56 := by
      simp [hbuf]; omega
    have hlen : (ctx.buffer.take ctx.buffer_len ++ [0x80] ++
        List.replicate (55 - ctx.buffer_len) 0 ++ ctx.buffer.drop 56).length = 64 := by
      simp [hbuf]; omega
    rw [write_length_field _ _ hlen (length_leBytes 8 _)]
    rw [List.take_left' h56]

theorem padBlockSS_eq (r : List Nat) (L : Nat) (hr : r.length ≤ 55) :
    padBlockSS r L =
      r ++ [0x80] ++ List.replicate (55 - r.length) 0 ++ leBytes 8 (L * 8 % U32) := by
  simp only [padBlockSS]
  rw [writeBytes_zero]
  rw [List.drop_replicate]
  rw [show writeBytes (r ++ List.replicate (64 - r.length) 0) r.length [0x80] =
      (r ++ List.replicate (64 - r.length) 0).take r.length ++ [0x80] ++
      (r ++ List.replicate (64 - r.length) 0).drop (r.length + 1) from rfl]
  rw [List.take_left' rfl]
  rw [List.drop_append_eq_append_drop]
  rw [List.drop_eq_nil_of_le (by omega)]
  rw [show r.length + 1 - r.length = 1 by omega]
  rw [List.drop_replicate]
  rw [show 64 - r.length - 1 = 63 - r.length by omega]
  have h64 : (r ++ [0x80] ++ List.replicate (63 - r.length) (0 : Nat)).length = 64 := by
    simp; omega
  rw [List.nil_append]
  rw [write_length_field _ _ h64 (length_leBytes 8 _)]
  rw [List.take_append_eq_append_take]
  rw [List.take_of_length_le (by simp; omega)]
  simp only [List.length_append, List.length_singleton]
  rw [List.take_replicate]
  rw [show (56 - (r.length + 1)) ⊓ (63 - r.length) = 55 - r.length by omega]

/-- Claim C4, amended: in verushash_finalize the 0x80 marker is placed at
the next free byte of the buffer before the overflow test.  If and only
if the buffer held more than 55 pending bytes, the block containing the
pending bytes, the marker and zero fill is absorbed first, and the block
carrying the length field is all zero up to byte 56; otherwise the single
final block carries the pending bytes, the marker, zero fill up to byte
56 and the length field.  In both cases the length field holds total_len
times 8 as a 64-bit value and the permutation output is returned directly
as the digest. -/
theorem C4_finalize_overflow_rule (aes : Bool) (ctx : Ctx)
    (hbuf : ctx.buffer.length = 64) (hbl : ctx.buffer_len ≤ 63) :
    (verushash_finalize aes ctx).1 =
      if 55 < ctx.buffer_len then
        haraka512 aes (xorBytes
          (absorbBlock aes ctx.state
            (ctx.buffer.take ctx.buffer_len ++ [0x80] ++
              List.replicate (63 - ctx.buffer_len) 0))
          (List.replicate 56 0 ++ leBytes 8 (ctx.total_len * 8 % U64)))
      else
        haraka512 aes (xorBytes ctx.state
          (ctx.buffer.take ctx.buffer_len ++ [0x80] ++
            List.replicate (55 - ctx.buffer_len) 0 ++
            leBytes 8 (ctx.total_len * 8 % U64))) := by
  rw [finalize_eq aes ctx hbuf hbl]
  by_cases h : 55 < ctx.buffer_len
  · rw [if_pos h, if_pos h]
  · rw [if_neg h, if_neg h]

/-- Witness for claim C4 at the freshly created context. -/
theorem C4_finalize_overflow_rule_witness :
    verushash_create_context.buffer.length = 64 ∧
    verushash_create_context.buffer_len ≤ 63 ∧
    (verushash_finalize false verushash_create_context).1 =
      (if 55 < verushash_create_context.buffer_len then
        haraka512 false (xorBytes
          (absorbBlock false verushash_create_context.state
            (verushash_create_context.buffer.take verushash_create_context.buffer_len ++
              [0x80] ++ List.replicate (63 - verushash_create_context.buffer_len) 0))
          (List.replicate 56 0 ++
            leBytes 8 (verushash_create_context.total_len * 8 % U64)))
      else
        haraka512 false (xorBytes verushash_create_context.state
          (verushash_create_context.buffer.take verushash_create_context.buffer_len ++
            [0x80] ++ List.replicate (55 - verushash_create_context.buffer_len) 0 ++
            leBytes 8 (verushash_create_context.total_len * 8 % U64)))) :=
  ⟨by decide, by decide,
    C4_finalize_overflow_rule false verushash_create_context (by decide) (by decide)⟩

theorem padBlockSS_drop56 (r : List Nat) (L : Nat) (hr : r.length ≤ 63) :
    (padBlockSS r L).drop 56 = leBytes 8 (L * 8 % U32) := by
  simp only [padBlockSS]
  have hb : (writeBytes (List.replicate 64 0) 0 r).length = 64 := by
    rw [writeBytes_length _ _ _ (by simp; omega)]
    simp
  have hb1 : (writeBytes (writeBytes (List.replicate 64 0) 0 r) r.length [0x80]).length
      = 64 := by
    rw [writeBytes_length _ _ _ (by rw [hb]; simp; omega)]
    exact hb
  rw [write_length_field _ _ hb1 (length_leBytes 8 _)]
  exact List.drop_left' (by rw [List.length_take, hb1]; omega)

/-- Claim C5, amended: the length field of the final padded block is the
64-bit store of total_len times 8 in the streaming path, but in the
single-shot path it is the uint32 product input_len times 8 reduced
modulo 2 to the 32 and then zero-extended, so the two agree only for
lengths below 2 to the 29.  The single-shot statement covers every
remainder the code can build, 0 to 63 trailing bytes; for remainders
above 55 the length store additionally overwrites the marker and the
trailing data bytes at offsets 56 to 63. -/
theorem C5_length_field_values (aes : Bool) (ctx : Ctx)
    (hbuf : ctx.buffer.length = 64) (hbl : ctx.buffer_len ≤ 63)
    (r : List Nat) (L : Nat) (hr : r.length ≤ 63) :
    (padBlockSS r L).drop 56 = leBytes 8 (L * 8 % U32) ∧
    ((verushash_finalize aes ctx).2.buffer).drop 56 =
      leBytes 8 (ctx.total_len * 8 % U64) := by
  constructor
  · exact padBlockSS_drop56 r L hr
  · rw [finalize_eq aes ctx hbuf hbl]
    by_cases h : 55 < ctx.buffer_len
    · rw [if_pos h]
      exact List.drop_left' (by simp)
    · rw [if_neg h]
      exact List.drop_left' (by simp [hbuf]; omega)

/-- Witness for claim C5 at the freshly created context and a 57-byte
remainder, one of the remainders above 55 where the length store also
overwrites the marker byte. -/
theorem C5_length_field_values_witness :
    verushash_create_context.buffer.length = 64 ∧
    verushash_create_context.buffer_len ≤ 63 ∧
    (List.replicate 57 1 : List Nat).length ≤ 63 ∧
    ((padBlockSS (List.replicate 57 1) 57).drop 56 = leBytes 8 (57 * 8 % U32) ∧
      ((verushash_finalize false verushash_create_context).2.buffer).drop 56 =
        leBytes 8 (verushash_create_context.total_len * 8 % U64)) :=
  ⟨by decide, by decide, by decide,
    C5_length_field_values false verushash_create_context (by decide) (by decide)
      (List.replicate 57 1) 57 (by decide)⟩

/-- Claim C9, amended: verushash_finalize does not zero the context.  It
leaves total_len unchanged, leaves buffer_len at the marker position or
zero after an overflow absorption, and leaves the final padded block,
whose last 8 bytes are the encoded bit length, in the buffer; the context
is zeroed only by verushash_destroy_context. -/
theorem C9_finalize_retains_state (aes : Bool) (ctx : Ctx)
    (hbuf : ctx.buffer.length = 64) (hbl : ctx.buffer_len ≤ 63) :
    (verushash_finalize aes ctx).2.total_len = ctx.total_len ∧
    (verushash_finalize aes ctx).2.buffer_len =
      (if 55 < ctx.buffer_len then 0 else ctx.buffer_len + 1) ∧
    ((verushash_finalize aes ctx).2.buffer).drop 56 =
      leBytes 8 (ctx.total_len * 8 % U64) := by
  rw [finalize_eq aes ctx hbuf hbl]
  by_cases h : 55 < ctx.buffer_len
  · rw [if_pos h, if_pos h]
    exact ⟨rfl, rfl, List.drop_left' (by simp)⟩
  · rw [if_neg h, if_neg h]
    exact ⟨rfl, rfl, List.drop_left' (by simp [hbuf]; omega)⟩

/-- Witness for claim C9 at the freshly created context. -/
theorem C9_finalize_retains_state_witness :
    verushash_create_context.buffer.length = 64 ∧
    verushash_create_context.buffer_len ≤ 63 ∧
    ((verushash_finalize false verushash_create_context).2.total_len =
        verushash_create_context.total_len ∧
      (verushash_finalize false verushash_create_context).2.buffer_len =
        (if 55 < verushash_create_context.buffer_len then 0 else
          verushash_create_context.buffer_len + 1) ∧
      ((verushash_finalize false verushash_create_context).2.buffer).drop 56 =
        leBytes 8 (verushash_create_context.total_len * 8 % U64)) :=
  ⟨by decide, by decide,
    C9_finalize_retains_state false verushash_create_context (by decide) (by decide)⟩

end VerusHash
